import Mathlib

/-!
Verification of the amistreamraider streaming pipeline against its
natural-language specification.

The development shallowly embeds the program's components:
* the MPEG-TS continuity splicer of scripts/ts_joiner.py (timestamp
  codec, packet parser, per-packet rewrite loop);
* the TCP fan-out broadcast loop of scripts/tcp_sink.py;
* the placeholder-to-live handover loop of scripts/fifo_switch.py;
* the HLS gap-filling repackager of scripts/hls_repacker.py;
* the stub transcode manager of server/transcode/stub.py, and a
  spec-modelled pipeline supervisor (server/transcode/manager.py is not
  part of the sources at hand).

Bytes are modelled as Nat (all operations mask into range); Python byte
strings become List Nat; Python exceptions become an explicit result
type; Python's unbounded-int arithmetic is modelled on Int/Nat with the
masks the source applies.
-/

/-! ## Continuity splicer: timestamp codec (scripts/ts_joiner.py) -/

/-- TS_PACKET_SIZE from ts_joiner.py. -/
def TS_PACKET_SIZE : Nat := 188

/-- PTS_MASK = (1 << 33) - 1 from ts_joiner.py. -/
def PTS_MASK : Nat := (1 <<< 33) - 1

/-- decode_pts from ts_joiner.py.  The Python function indexes data[0..4];
every call site passes a slice of exactly 5 bytes, so total indexing with
default 0 (List.getD) is faithful there. -/
def decode_pts (data : List Nat) : Nat :=
  ((data.getD 0 0 >>> 1) &&& 0x07) <<< 30 |||
  (data.getD 1 0 <<< 22) |||
  (((data.getD 2 0 >>> 1) &&& 0x7F) <<< 15) |||
  (data.getD 3 0 <<< 7) |||
  ((data.getD 4 0 >>> 1) &&& 0x7F)

/-- encode_pts from ts_joiner.py, byte for byte. -/
def encode_pts (value : Nat) : List Nat :=
  let pts := value &&& ((1 <<< 33) - 1)
  let b0 := (((0x2 <<< 4) ||| ((pts >>> 30) &&& 0x07)) <<< 1) ||| 0x01
  let b1 := (pts >>> 22) &&& 0xFF
  let b2 := (((((pts >>> 15) &&& 0x7F) <<< 1) ||| 0x01)) &&& 0xFF
  let b3 := (pts >>> 7) &&& 0xFF
  let b4 := ((((pts &&& 0x7F) <<< 1) ||| 0x01)) &&& 0xFF
  [b0, b1, b2, b3, b4]

/-- stream_is_media from ts_joiner.py. -/
def stream_is_media (stream_id : Nat) : Bool :=
  (0xC0 ≤ stream_id && stream_id ≤ 0xDF) || (0xE0 ≤ stream_id && stream_id ≤ 0xEF)

/-- The splice-offset computation of ts_joiner.main:
pts_offset = (placeholder_last_pts - first_live_pts) & PTS_MASK.
In Python the subtraction of unbounded ints may be negative, and
n & (2^33 - 1) on any int equals n mod 2^33 with a non-negative result,
which is exactly Int.emod with a positive modulus. -/
def pts_offset_calc (placeholder_last_pts first_live_pts : Nat) : Nat :=
  ((((placeholder_last_pts : Int) - (first_live_pts : Int)) % ((2 : Int) ^ 33)).toNat)

/-- The per-timestamp rewrite of ts_joiner.main:
new_pts = (pts + pts_offset) & PTS_MASK. -/
def rewrite_ts (ts off : Nat) : Nat :=
  (ts + off) &&& PTS_MASK

/-- C1: pts_offset = (placeholder_last_pts - first_live_pts) mod 2^33, so
first_live_pts + pts_offset ≡ placeholder_last_pts (mod 2^33); with
placeholder max PTS 90000 and first live PTS 0 the offset is 90000, and a
later live PTS of 9000 is rewritten to 99000. -/
theorem C1_pts_offset_congruent (pl fl : Nat) :
    ((fl : Int) + (pts_offset_calc pl fl : Int)) % 2 ^ 33 = (pl : Int) % 2 ^ 33
    ∧ pts_offset_calc 90000 0 = 90000
    ∧ rewrite_ts 9000 (pts_offset_calc 90000 0) = 99000 := by
  refine ⟨?_, by decide, by decide⟩
  unfold pts_offset_calc
  omega

/-- C3: the claimed round-trip law encode_pts (decode_pts b) = b fails on
every 5-byte field with a standard prefix nibble (0b0010, 0b0011 or
0b0001): encode_pts left-shifts the prefix constant together with the
value bits, so the first byte it emits is 0x41..0x4F.  Evaluated here at
the valid PTS fields 21 00 01 00 01 (prefix 0b0010) and
31 00 01 00 01 (prefix 0b0011), both encoding the timestamp 0. -/
theorem C3_roundtrip_fails_on_valid_field :
    decode_pts [0x21, 0x00, 0x01, 0x00, 0x01] = 0
    ∧ encode_pts 0 = [0x41, 0x00, 0x01, 0x00, 0x01]
    ∧ encode_pts (decode_pts [0x21, 0x00, 0x01, 0x00, 0x01])
        ≠ [0x21, 0x00, 0x01, 0x00, 0x01]
    ∧ encode_pts (decode_pts [0x31, 0x00, 0x01, 0x00, 0x01])
        ≠ [0x31, 0x00, 0x01, 0x00, 0x01] := by
  refine ⟨by decide, by decide, by decide, by decide⟩

/-! ## Continuity splicer: packet parsing (extract_pts) and the main loop -/

/-- Result of running Python code that may raise: .ok is a normal return,
.exn models an uncaught exception (here only IndexError from indexing a
bytearray out of range). -/
inductive PyResult (α : Type) where
  | ok : α → PyResult α
  | exn : PyResult α
deriving DecidableEq, Repr

/-- packet[i] on a Python bytearray: the byte, or IndexError when i is out
of range. -/
def pyGet (l : List Nat) (i : Nat) : PyResult Nat :=
  if h : i < l.length then .ok (l.get ⟨i, h⟩) else .exn

/-- packet[a:b] on a Python bytearray: slicing never raises. -/
def pySlice (l : List Nat) (a b : Nat) : List Nat :=
  (l.drop a).take (b - a)

/-- The tuple extract_pts returns on success:
(pts, pts_pos, dts, dts_pos). -/
structure Extracted where
  pts : Nat
  pts_pos : Nat
  dts : Option Nat
  dts_pos : Option Nat
deriving DecidableEq, Repr

/-- adaptation_field_control = (packet[3] >> 4) & 0x03 in extract_pts. -/
def ts_afc (packet : List Nat) : Nat :=
  (packet.getD 3 0 >>> 4) &&& 0x03

/-- The payload offset idx of extract_pts: 4, advanced past the adaptation
field (idx += 1 + adap_len) when adaptation_field_control is 2 or 3. -/
def ts_idx (packet : List Nat) : Nat :=
  if ts_afc packet = 2 ∨ ts_afc packet = 3 then 5 + packet.getD 4 0 else 4

/-- The tail of extract_pts from the PES start-code check onward, with the
payload offset idx already computed.  pts_pos is idx + 9 and dts_pos is
pts_pos + 5.  flags (packet[idx + 7]) and header_data_length
(packet[idx + 8]) are fetched before the flags test, exactly as in the
source, so an out-of-range idx + 7 or idx + 8 raises IndexError. -/
def extract_pts_payload (packet : List Nat) (idx : Nat) : PyResult (Option Extracted) :=
  if packet.length < idx + 6 ∨ pySlice packet idx (idx + 3) ≠ [0x00, 0x00, 0x01] then
    .ok none
  else if ¬ stream_is_media (packet.getD (idx + 3) 0) then .ok none
  else
    match pyGet packet (idx + 7), pyGet packet (idx + 8) with
    | .ok flags, .ok header_data_length =>
      if flags &&& 0x80 = 0 then .ok none
      else if packet.length < idx + 9 + 5 ∨ header_data_length < 5 then .ok none
      else if flags &&& 0x40 ≠ 0 then
        if packet.length < idx + 14 + 5 ∨ header_data_length < 10 then .ok none
        else
          .ok (some ⟨decode_pts (pySlice packet (idx + 9) (idx + 9 + 5)), idx + 9,
                     some (decode_pts (pySlice packet (idx + 14) (idx + 14 + 5))),
                     some (idx + 14)⟩)
      else .ok (some ⟨decode_pts (pySlice packet (idx + 9) (idx + 9 + 5)), idx + 9,
                      none, none⟩)
    | _, _ => .exn

/-- extract_pts from ts_joiner.py.  The source's guard `idx >= len(packet)`
inside the adaptation branch runs with idx = 4 and length 188, so it can
never fire and is not modelled.  payload_unit_start is
packet[1] & 0x40 != 0. -/
def extract_pts (packet : List Nat) : PyResult (Option Extracted) :=
  if packet.length ≠ TS_PACKET_SIZE ∨ packet.getD 0 0 ≠ 0x47 then .ok none
  else if ts_afc packet = 2 ∨ packet.length ≤ ts_idx packet then .ok none
  else if packet.getD 1 0 &&& 0x40 = 0 then .ok none
  else extract_pts_payload packet (ts_idx packet)

/-- bytearray slice assignment packet[pos : pos + len r] = r with a
replacement of the same length as the slice. -/
def setSlice (l : List Nat) (pos : Nat) (r : List Nat) : List Nat :=
  l.take pos ++ r ++ l.drop (pos + r.length)

/-- The splice-session state of ts_joiner.main. -/
structure SpliceState where
  placeholder_last_pts : Option Nat
  first_live_pts : Option Nat
  pts_offset : Option Nat
deriving DecidableEq, Repr

/-- The first-decode bookkeeping of ts_joiner.main's live branch: on the
first successful live decode set first_live_pts, default
placeholder_last_pts to it when none was ever observed, and compute
pts_offset; afterwards the state is left untouched. -/
def splice_note_first (st : SpliceState) (pts : Nat) : SpliceState :=
  if st.first_live_pts = none then
    { placeholder_last_pts := some (st.placeholder_last_pts.getD pts),
      first_live_pts := some pts,
      pts_offset := some (pts_offset_calc (st.placeholder_last_pts.getD pts) pts) }
  else st

/-- The in-place rewrite of ts_joiner.main's live branch: when pts_offset
is known, re-encode pts + offset into the 5-byte field at pts_pos and,
when a DTS was parsed, dts + offset into the field at dts_pos. -/
def splice_apply_offset (st : SpliceState) (e : Extracted) (packet : List Nat) :
    List Nat :=
  match st.pts_offset with
  | none => packet
  | some off =>
      match e.dts, e.dts_pos with
      | some d, some dp =>
          setSlice (setSlice packet e.pts_pos (encode_pts (rewrite_ts e.pts off))) dp
            (encode_pts (rewrite_ts d off))
      | _, _ => setSlice packet e.pts_pos (encode_pts (rewrite_ts e.pts off))

/-- One iteration of ts_joiner.main on a live-side packet: parse, compute
the offset on the first successful decode, rewrite the PTS (and DTS when
present) in place, emit the packet. -/
def process_live_packet (st : SpliceState) (packet : List Nat) :
    PyResult (SpliceState × List Nat) :=
  match extract_pts packet with
  | .exn => .exn
  | .ok none => .ok (st, packet)
  | .ok (some e) =>
      .ok (splice_note_first st e.pts,
           splice_apply_offset (splice_note_first st e.pts) e packet)

/-- The max-tracking of ts_joiner.main's placeholder branch:
placeholder_last_pts is replaced when unset or exceeded. -/
def placeholder_note (st : SpliceState) (pts : Nat) : SpliceState :=
  match st.placeholder_last_pts with
  | none => { st with placeholder_last_pts := some pts }
  | some p => if p < pts then { st with placeholder_last_pts := some pts } else st

/-- One iteration of ts_joiner.main on a placeholder-side packet: track the
maximum decoded PTS, emit the packet unchanged. -/
def process_placeholder_packet (st : SpliceState) (packet : List Nat) :
    PyResult (SpliceState × List Nat) :=
  match extract_pts packet with
  | .exn => .exn
  | .ok none => .ok (st, packet)
  | .ok (some e) => .ok (placeholder_note st e.pts, packet)

/-- The live-side loop of ts_joiner.main over a list of packets. -/
def run_live (st : SpliceState) : List (List Nat) → PyResult (SpliceState × List (List Nat))
  | [] => .ok (st, [])
  | p :: ps =>
      match process_live_packet st p with
      | .exn => .exn
      | .ok (st1, q) =>
          match run_live st1 ps with
          | .exn => .exn
          | .ok (st2, qs) => .ok (st2, q :: qs)

/-- A 188-byte packet with a valid sync byte, payload-unit-start set and
adaptation-field control 3 whose 175-byte adaptation field pushes the PES
header to the end of the packet: the start code sits at offset 180, so
reading header_data_length at offset 188 is out of range. -/
def crash_packet : List Nat :=
  (List.range 188).map (fun i =>
    if i = 0 then 0x47 else if i = 1 then 0x40 else if i = 3 then 0x30
    else if i = 4 then 175 else if i = 182 then 0x01
    else if i = 183 then 0xE0 else 0)

set_option maxRecDepth 20000 in
/-- C7: refuted on the code — a malformed (truncated-PES) packet does not
pass through byte-identical: extract_pts raises IndexError reading
packet[idx + 8], and ts_joiner.main has no handler, so the joiner aborts
on this packet on either path. -/
theorem C7_malformed_packet_aborts :
    crash_packet.length = TS_PACKET_SIZE
    ∧ extract_pts crash_packet = .exn
    ∧ process_live_packet ⟨none, none, none⟩ crash_packet = .exn
    ∧ process_placeholder_packet ⟨none, none, none⟩ crash_packet = .exn := by
  refine ⟨by decide, by decide, by decide, by decide⟩

/-! ## Helper lemmas about slice assignment and parser inversion -/

/-- Element-level description of a slice assignment that fits inside the
list. -/
theorem getElem?_setSlice (l r : List Nat) (pos i : Nat)
    (hle : pos + r.length ≤ l.length) :
    (setSlice l pos r)[i]? =
      if i < pos then l[i]?
      else if i < pos + r.length then r[i - pos]?
      else l[i]? := by
  unfold setSlice
  have hpos : pos ≤ l.length := by omega
  have hlt : (l.take pos).length = pos := by
    simp [List.length_take, Nat.min_eq_left hpos]
  by_cases h1 : i < pos
  · rw [List.getElem?_append_left (by simp [List.length_append]; omega)]
    rw [List.getElem?_append_left (by omega)]
    simp [List.getElem?_take, h1]
  · by_cases h2 : i < pos + r.length
    · rw [List.getElem?_append_left (by simp [List.length_append]; omega)]
      rw [List.getElem?_append_right (by omega)]
      simp [hlt, h1, h2]
    · rw [List.getElem?_append_right (by simp [List.length_append]; omega)]
      rw [List.getElem?_drop]
      have harith : pos + r.length + (i - (l.take pos ++ r).length) = i := by
        simp [List.length_append, hlt]; omega
      rw [harith]
      simp [h1, h2]

/-- A slice assignment that fits inside the list preserves its length. -/
theorem length_setSlice (l r : List Nat) (pos : Nat)
    (hle : pos + r.length ≤ l.length) :
    (setSlice l pos r).length = l.length := by
  simp [setSlice]
  omega

/-- Bytes outside the assigned region are unchanged. -/
theorem getD_setSlice_outside (l r : List Nat) (pos i : Nat)
    (hle : pos + r.length ≤ l.length)
    (h : i < pos ∨ pos + r.length ≤ i) :
    (setSlice l pos r).getD i 0 = l.getD i 0 := by
  rw [List.getD_eq_getElem?_getD, List.getD_eq_getElem?_getD,
      getElem?_setSlice l r pos i hle]
  rcases h with h | h
  · rw [if_pos h]
  · rw [if_neg (by omega), if_neg (by omega)]

/-- Reading back the assigned region yields the replacement. -/
theorem pySlice_setSlice_self (l r : List Nat) (pos : Nat)
    (hle : pos + r.length ≤ l.length) :
    pySlice (setSlice l pos r) pos (pos + r.length) = r := by
  apply List.ext_getElem?
  intro j
  unfold pySlice
  rw [List.getElem?_take]
  by_cases hj : j < pos + r.length - pos
  · rw [if_pos hj, List.getElem?_drop,
        getElem?_setSlice l r pos (pos + j) hle]
    rw [if_neg (by omega), if_pos (by omega)]
    congr 1
    omega
  · rw [if_neg hj]
    exact (List.getElem?_eq_none (by omega)).symm

/-- A slice strictly before the assigned region is unchanged. -/
theorem pySlice_setSlice_before (l r : List Nat) (pos a b : Nat)
    (hle : pos + r.length ≤ l.length) (hb : b ≤ pos) :
    pySlice (setSlice l pos r) a b = pySlice l a b := by
  apply List.ext_getElem?
  intro j
  unfold pySlice
  rw [List.getElem?_take, List.getElem?_take]
  by_cases hj : j < b - a
  · rw [if_pos hj, if_pos hj, List.getElem?_drop, List.getElem?_drop,
        getElem?_setSlice l r pos (a + j) hle, if_pos (by omega)]
  · rw [if_neg hj, if_neg hj]

/-- Inversion of extract_pts_payload on a successful parse: the positions,
bounds and decoded values it reports. -/
theorem extract_pts_payload_ok_shape (packet : List Nat) (idx : Nat)
    (e : Extracted) (h : extract_pts_payload packet idx = .ok (some e)) :
    e.pts_pos = idx + 9 ∧
    e.pts = decode_pts (pySlice packet (idx + 9) (idx + 14)) ∧
    idx + 14 ≤ packet.length ∧
    ((e.dts = none ∧ e.dts_pos = none) ∨
      (∃ d, e.dts = some d ∧ e.dts_pos = some (idx + 14) ∧
        d = decode_pts (pySlice packet (idx + 14) (idx + 19)) ∧
        idx + 19 ≤ packet.length)) := by
  unfold extract_pts_payload at h
  by_cases hcode : packet.length < idx + 6 ∨ pySlice packet idx (idx + 3) ≠ [0x00, 0x00, 0x01]
  · rw [if_pos hcode] at h
    simp at h
  rw [if_neg hcode] at h
  by_cases hmedia : ¬ stream_is_media (packet.getD (idx + 3) 0)
  · rw [if_pos hmedia] at h
    simp at h
  rw [if_neg hmedia] at h
  cases h7 : pyGet packet (idx + 7) with
  | exn =>
      rw [h7] at h
      cases h8 : pyGet packet (idx + 8) <;> rw [h8] at h <;> simp at h
  | ok flags =>
  rw [h7] at h
  cases h8 : pyGet packet (idx + 8) with
  | exn =>
      rw [h8] at h
      simp at h
  | ok header_data_length =>
  rw [h8] at h
  simp only at h
  by_cases hflags : flags &&& 0x80 = 0
  · rw [if_pos hflags] at h
    simp at h
  rw [if_neg hflags] at h
  by_cases hpts : packet.length < idx + 9 + 5 ∨ header_data_length < 5
  · rw [if_pos hpts] at h
    simp at h
  rw [if_neg hpts] at h
  push_neg at hpts
  by_cases hdts : flags &&& 0x40 ≠ 0
  · rw [if_pos hdts] at h
    by_cases hdtsb : packet.length < idx + 14 + 5 ∨ header_data_length < 10
    · rw [if_pos hdtsb] at h
      simp at h
    rw [if_neg hdtsb] at h
    push_neg at hdtsb
    obtain rfl : (⟨decode_pts (pySlice packet (idx + 9) (idx + 9 + 5)),
        idx + 9, some (decode_pts (pySlice packet (idx + 14) (idx + 14 + 5))),
        some (idx + 14)⟩ : Extracted) = e := by
      cases h
      rfl
    refine ⟨rfl, by norm_num, by omega,
      Or.inr ⟨_, rfl, rfl, by norm_num, by omega⟩⟩
  · rw [if_neg hdts] at h
    obtain rfl : (⟨decode_pts (pySlice packet (idx + 9) (idx + 9 + 5)),
        idx + 9, none, none⟩ : Extracted) = e := by
      cases h
      rfl
    refine ⟨rfl, by norm_num, by omega, Or.inl ⟨rfl, rfl⟩⟩

/-- Inversion of extract_pts on a successful parse. -/
theorem extract_pts_ok_shape (packet : List Nat) (e : Extracted)
    (h : extract_pts packet = .ok (some e)) :
    packet.length = 188 ∧
    e.pts = decode_pts (pySlice packet e.pts_pos (e.pts_pos + 5)) ∧
    e.pts_pos + 5 ≤ packet.length ∧
    ((e.dts = none ∧ e.dts_pos = none) ∨
      (∃ d, e.dts = some d ∧ e.dts_pos = some (e.pts_pos + 5) ∧
        d = decode_pts (pySlice packet (e.pts_pos + 5) (e.pts_pos + 10)) ∧
        e.pts_pos + 10 ≤ packet.length)) := by
  unfold extract_pts at h
  by_cases hsync : packet.length ≠ TS_PACKET_SIZE ∨ packet.getD 0 0 ≠ 0x47
  · rw [if_pos hsync] at h
    simp at h
  rw [if_neg hsync] at h
  push_neg at hsync
  by_cases hafc : ts_afc packet = 2 ∨ packet.length ≤ ts_idx packet
  · rw [if_pos hafc] at h
    simp at h
  rw [if_neg hafc] at h
  by_cases hpus : packet.getD 1 0 &&& 0x40 = 0
  · rw [if_pos hpus] at h
    simp at h
  rw [if_neg hpus] at h
  have hs := extract_pts_payload_ok_shape _ _ _ h
  obtain ⟨hpos, hpts, hlen, hrest⟩ := hs
  have h188 : packet.length = 188 := by
    simpa [TS_PACKET_SIZE] using hsync.1
  refine ⟨h188, ?_, by omega, ?_⟩
  · rw [hpos]
    convert hpts using 3
  · rcases hrest with hnone | ⟨d, hd, hdp, hdv, hdb⟩
    · exact Or.inl hnone
    · refine Or.inr ⟨d, hd, ?_, ?_, by omega⟩
      · rw [hdp, hpos]
      · rw [hdv, hpos]

/-! ## Splice-loop invariants (claims C5 and C10) -/

/-- Timestamps decoded from bytes are 33-bit values. -/
theorem decode_pts_lt (data : List Nat) (hb : ∀ b ∈ data, b < 256) :
    decode_pts data < 2 ^ 33 := by
  have hgetD : ∀ i, data.getD i 0 < 256 := by
    intro i
    rw [List.getD_eq_getElem?_getD]
    cases hdi : data[i]? with
    | none => simp
    | some b =>
        have hmem : b ∈ data := List.getElem?_mem hdi
        simpa using hb b hmem
  have hor : ∀ x y : Nat, x < 2 ^ 33 → y < 2 ^ 33 → x ||| y < 2 ^ 33 :=
    fun _ _ hx hy => Nat.or_lt_two_pow hx hy
  unfold decode_pts
  refine hor _ _ (hor _ _ (hor _ _ (hor _ _ ?_ ?_) ?_) ?_) ?_
  · have h7 : (data.getD 0 0 >>> 1) &&& 0x07 ≤ 7 := Nat.and_le_right
    calc ((data.getD 0 0 >>> 1) &&& 0x07) <<< 30
        = ((data.getD 0 0 >>> 1) &&& 0x07) * 2 ^ 30 := Nat.shiftLeft_eq _ _
      _ < 2 ^ 33 := by omega
  · have h1 := hgetD 1
    calc data.getD 1 0 <<< 22 = data.getD 1 0 * 2 ^ 22 := Nat.shiftLeft_eq _ _
      _ < 2 ^ 33 := by omega
  · have h7 : (data.getD 2 0 >>> 1) &&& 0x7F ≤ 127 := Nat.and_le_right
    calc ((data.getD 2 0 >>> 1) &&& 0x7F) <<< 15
        = ((data.getD 2 0 >>> 1) &&& 0x7F) * 2 ^ 15 := Nat.shiftLeft_eq _ _
      _ < 2 ^ 33 := by omega
  · have h3 := hgetD 3
    calc data.getD 3 0 <<< 7 = data.getD 3 0 * 2 ^ 7 := Nat.shiftLeft_eq _ _
      _ < 2 ^ 33 := by omega
  · have h7 : (data.getD 4 0 >>> 1) &&& 0x7F ≤ 127 := Nat.and_le_right
    omega

/-- The mask applied by the rewrite is reduction mod 2^33. -/
theorem rewrite_ts_eq_mod (x off : Nat) : rewrite_ts x off = (x + off) % 2 ^ 33 := by
  unfold rewrite_ts PTS_MASK
  rw [Nat.shiftLeft_eq, one_mul]
  exact Nat.and_pow_two_sub_one_eq_mod _ 33

/-- Rewriting with offset 0 keeps a 33-bit timestamp unchanged. -/
theorem rewrite_ts_zero (x : Nat) (hx : x < 2 ^ 33) : rewrite_ts x 0 = x := by
  rw [rewrite_ts_eq_mod, Nat.add_zero, Nat.mod_eq_of_lt hx]

/-- Unfolding equation: a live iteration on an unparseable packet raises. -/
theorem process_live_packet_exn (st : SpliceState) (pkt : List Nat)
    (h : extract_pts pkt = .exn) : process_live_packet st pkt = .exn := by
  unfold process_live_packet
  rw [h]

/-- Unfolding equation: a live iteration on a packet without a timestamp
emits it unchanged. -/
theorem process_live_packet_ok_none (st : SpliceState) (pkt : List Nat)
    (h : extract_pts pkt = .ok none) : process_live_packet st pkt = .ok (st, pkt) := by
  unfold process_live_packet
  rw [h]

/-- Unfolding equation: a live iteration on a packet with a decoded
timestamp notes the first decode and applies the offset rewrite. -/
theorem process_live_packet_ok_some (st : SpliceState) (pkt : List Nat)
    (e : Extracted) (h : extract_pts pkt = .ok (some e)) :
    process_live_packet st pkt =
      .ok (splice_note_first st e.pts,
           splice_apply_offset (splice_note_first st e.pts) e pkt) := by
  unfold process_live_packet
  rw [h]

/-- Once first_live_pts is set, the first-decode bookkeeping is the
identity. -/
theorem splice_note_first_fixed (st : SpliceState) (f : Nat)
    (hf : st.first_live_pts = some f) (pts : Nat) :
    splice_note_first st pts = st := by
  unfold splice_note_first
  rw [if_neg (by simp [hf])]

/-- Once first_live_pts is set, a live-side iteration never changes the
splice state (neither first_live_pts nor pts_offset). -/
theorem process_live_packet_state_fixed (st : SpliceState) (f : Nat)
    (hf : st.first_live_pts = some f) (pkt : List Nat)
    (r : SpliceState × List Nat) (h : process_live_packet st pkt = .ok r) :
    r.1 = st := by
  cases hext : extract_pts pkt with
  | exn =>
      rw [process_live_packet_exn st pkt hext] at h
      simp at h
  | ok a =>
      cases a with
      | none =>
          rw [process_live_packet_ok_none st pkt hext] at h
          cases h
          rfl
      | some e =>
          rw [process_live_packet_ok_some st pkt e hext,
              splice_note_first_fixed st f hf e.pts] at h
          cases h
          rfl

/-- The whole live loop preserves the splice state once first_live_pts is
set. -/
theorem run_live_state_fixed (f : Nat) :
    ∀ (pkts : List (List Nat)) (st st' : SpliceState) (outs : List (List Nat)),
      st.first_live_pts = some f →
      run_live st pkts = .ok (st', outs) → st' = st := by
  intro pkts
  induction pkts with
  | nil =>
      intro st st' outs hf h
      unfold run_live at h
      cases h
      rfl
  | cons p ps ih =>
      intro st st' outs hf h
      cases hp : process_live_packet st p with
      | exn =>
          unfold run_live at h
          rw [hp] at h
          simp at h
      | ok r =>
          obtain ⟨st1, q⟩ := r
          unfold run_live at h
          rw [hp] at h
          simp only at h
          cases hr : run_live st1 ps with
          | exn =>
              rw [hr] at h
              simp at h
          | ok r2 =>
              obtain ⟨st2, qs⟩ := r2
              rw [hr] at h
              simp only at h
              obtain ⟨h1, h2⟩ : st2 = st' ∧ q :: qs = outs := by
                cases h
                exact ⟨rfl, rfl⟩
              have hst1 : st1 = st :=
                process_live_packet_state_fixed st f hf p (st1, q) hp
              have hf1 : st1.first_live_pts = some f := by
                rw [hst1]
                exact hf
              have hst2 : st2 = st1 := ih st1 st2 qs hf1 hr
              rw [← h1, hst2, hst1]

/-- encode_pts always emits a 5-byte field. -/
theorem encode_pts_length (v : Nat) : (encode_pts v).length = 5 := by
  simp [encode_pts]

/-- C5: once pts_offset is computed it is never recomputed for the rest of
the splice session (the live loop leaves first_live_pts and pts_offset
untouched), the rewrite adds the offset modulo 2^33, and every live packet
with a decodable timestamp has its PTS field, and when present its DTS
field, re-encoded in place in its original 5-byte position with all other
bytes of the packet unchanged. -/
theorem C5_offset_fixed_and_inplace_rewrite (st : SpliceState) (f o : Nat)
    (pkts : List (List Nat)) (pkt : List Nat) (e : Extracted)
    (hf : st.first_live_pts = some f) (ho : st.pts_offset = some o) :
    (∀ st' outs, run_live st pkts = .ok (st', outs) →
        st'.pts_offset = some o ∧ st'.first_live_pts = some f)
    ∧ (∀ x off, rewrite_ts x off = (x + off) % 2 ^ 33)
    ∧ (extract_pts pkt = .ok (some e) →
        ∃ out, process_live_packet st pkt = .ok (st, out)
          ∧ out.length = pkt.length
          ∧ pySlice out e.pts_pos (e.pts_pos + 5) = encode_pts (rewrite_ts e.pts o)
          ∧ (∀ d dp, e.dts = some d → e.dts_pos = some dp →
              pySlice out dp (dp + 5) = encode_pts (rewrite_ts d o))
          ∧ (∀ i, i < e.pts_pos ∨
                e.pts_pos + 5 + (if e.dts_pos = none then 0 else 5) ≤ i →
              out.getD i 0 = pkt.getD i 0)) := by
  refine ⟨?_, rewrite_ts_eq_mod, ?_⟩
  · intro st' outs hrun
    have hst : st' = st := run_live_state_fixed f pkts st st' outs hf hrun
    rw [hst]
    exact ⟨ho, hf⟩
  · intro he
    obtain ⟨h188, hpts, hlen5, hrest⟩ := extract_pts_ok_shape pkt e he
    have hproc := process_live_packet_ok_some st pkt e he
    rw [splice_note_first_fixed st f hf e.pts] at hproc
    have henc1 : (encode_pts (rewrite_ts e.pts o)).length = 5 := encode_pts_length _
    rcases hrest with ⟨hdn, hdpn⟩ | ⟨d, hd, hdp, hdv, hdb⟩
    · refine ⟨setSlice pkt e.pts_pos (encode_pts (rewrite_ts e.pts o)), ?_, ?_, ?_, ?_, ?_⟩
      · rw [hproc]
        unfold splice_apply_offset
        rw [ho]
        simp only [hdn, hdpn]
      · rw [length_setSlice _ _ _ (by omega)]
      · have := pySlice_setSlice_self pkt (encode_pts (rewrite_ts e.pts o)) e.pts_pos (by omega)
        rwa [henc1] at this
      · intro d dp hcon
        rw [hdn] at hcon
        cases hcon
      · intro i hi
        rw [hdpn] at hi
        simp only [if_pos rfl] at hi
        exact getD_setSlice_outside pkt _ e.pts_pos i (by omega) (by omega)
    · have henc2 : (encode_pts (rewrite_ts d o)).length = 5 := encode_pts_length _
      refine ⟨setSlice (setSlice pkt e.pts_pos (encode_pts (rewrite_ts e.pts o)))
              (e.pts_pos + 5) (encode_pts (rewrite_ts d o)), ?_, ?_, ?_, ?_, ?_⟩
      · rw [hproc]
        unfold splice_apply_offset
        rw [ho]
        simp only [hd, hdp]
      · rw [length_setSlice _ _ _ (by rw [length_setSlice _ _ _ (by omega)]; omega),
            length_setSlice _ _ _ (by omega)]
      · rw [pySlice_setSlice_before _ _ _ _ _ (by rw [length_setSlice _ _ _ (by omega)]; omega)
              (by omega)]
        have := pySlice_setSlice_self pkt (encode_pts (rewrite_ts e.pts o)) e.pts_pos (by omega)
        rwa [henc1] at this
      · intro d' dp' hd' hdp'
        rw [hd] at hd'
        rw [hdp] at hdp'
        cases hd'
        cases hdp'
        have := pySlice_setSlice_self
          (setSlice pkt e.pts_pos (encode_pts (rewrite_ts e.pts o)))
          (encode_pts (rewrite_ts d o)) (e.pts_pos + 5)
          (by rw [length_setSlice _ _ _ (by omega)]; omega)
        rwa [henc2] at this
      · intro i hi
        rw [hdp] at hi
        have hi' : i < e.pts_pos ∨ e.pts_pos + 10 ≤ i := by simpa using hi
        rw [getD_setSlice_outside _ _ _ i
              (by rw [length_setSlice _ _ _ (by omega)]; omega) (by omega)]
        exact getD_setSlice_outside pkt _ e.pts_pos i (by omega) (by omega)

/-- A well-formed 188-byte live packet: sync byte, payload-unit start, no
adaptation field, video stream id 0xE0, PTS-only flags, header data
length 5, and the 5-byte field at offset 13 encoding PTS 9000. -/
def sample_live_packet : List Nat :=
  [0x47, 0x40, 0x00, 0x10, 0x00, 0x00, 0x01, 0xE0, 0x00, 0x00, 0x00, 0x80, 0x05]
  ++ encode_pts 9000 ++ List.replicate 170 0xFF

set_option maxRecDepth 20000 in
/-- Witness for C5 at a concrete state and packet: state with
placeholder_last_pts 90000, first_live_pts 0 and pts_offset 90000, run on
the sample packet carrying PTS 9000. -/
theorem C5_offset_fixed_and_inplace_rewrite_witness :
    (∀ st' outs,
        run_live ⟨some 90000, some 0, some 90000⟩ [sample_live_packet] = .ok (st', outs) →
        st'.pts_offset = some 90000 ∧ st'.first_live_pts = some 0)
    ∧ (∀ x off, rewrite_ts x off = (x + off) % 2 ^ 33)
    ∧ (extract_pts sample_live_packet = .ok (some ⟨9000, 13, none, none⟩) →
        ∃ out, process_live_packet ⟨some 90000, some 0, some 90000⟩ sample_live_packet
            = .ok (⟨some 90000, some 0, some 90000⟩, out)
          ∧ out.length = sample_live_packet.length
          ∧ pySlice out 13 (13 + 5) = encode_pts (rewrite_ts 9000 90000)
          ∧ (∀ d dp, (none : Option Nat) = some d → (none : Option Nat) = some dp →
              pySlice out dp (dp + 5) = encode_pts (rewrite_ts d 90000))
          ∧ (∀ i, i < 13 ∨ 13 + 5 + (if (none : Option Nat) = none then 0 else 5) ≤ i →
              out.getD i 0 = sample_live_packet.getD i 0)) :=
  C5_offset_fixed_and_inplace_rewrite ⟨some 90000, some 0, some 90000⟩ 0 90000
    [sample_live_packet] sample_live_packet ⟨9000, 13, none, none⟩ rfl rfl

/-- C10: when the first live-side timestamp is decoded with no placeholder
timestamp ever observed, ts_joiner sets placeholder_last_pts to that live
timestamp, so pts_offset is 0 and rewritten timestamps keep their numeric
value; the live iteration completes normally (it never waits for a
placeholder timestamp). -/
theorem C10_first_live_without_placeholder (st : SpliceState) (pkt : List Nat)
    (e : Extracted) (hp : st.placeholder_last_pts = none)
    (hf : st.first_live_pts = none) (hb : ∀ b ∈ pkt, b < 256)
    (he : extract_pts pkt = .ok (some e)) :
    splice_note_first st e.pts = ⟨some e.pts, some e.pts, some 0⟩
    ∧ pts_offset_calc e.pts e.pts = 0
    ∧ rewrite_ts e.pts 0 = e.pts
    ∧ (∀ x, x < 2 ^ 33 → rewrite_ts x 0 = x)
    ∧ (∃ out, process_live_packet st pkt = .ok (⟨some e.pts, some e.pts, some 0⟩, out)
        ∧ pySlice out e.pts_pos (e.pts_pos + 5) = encode_pts e.pts) := by
  obtain ⟨h188, hpts, hlen5, hrest⟩ := extract_pts_ok_shape pkt e he
  have hptslt : e.pts < 2 ^ 33 := by
    rw [hpts]
    refine decode_pts_lt _ ?_
    intro b hbmem
    have : b ∈ pkt := by
      have h1 := List.mem_of_mem_take hbmem
      exact List.mem_of_mem_drop h1
    exact hb b this
  have hzero : pts_offset_calc e.pts e.pts = 0 := by
    unfold pts_offset_calc
    simp
  have hnote : splice_note_first st e.pts = ⟨some e.pts, some e.pts, some 0⟩ := by
    unfold splice_note_first
    rw [if_pos (by simp [hf])]
    simp [hp, hzero]
  have hrw : rewrite_ts e.pts 0 = e.pts := rewrite_ts_zero e.pts hptslt
  refine ⟨hnote, hzero, hrw, fun x hx => rewrite_ts_zero x hx, ?_⟩
  have hproc := process_live_packet_ok_some st pkt e he
  rw [hnote] at hproc
  have henc1 : (encode_pts (rewrite_ts e.pts 0)).length = 5 := encode_pts_length _
  rcases hrest with ⟨hdn, hdpn⟩ | ⟨d, hd, hdp, hdv, hdb⟩
  · refine ⟨setSlice pkt e.pts_pos (encode_pts (rewrite_ts e.pts 0)), ?_, ?_⟩
    · rw [hproc]
      unfold splice_apply_offset
      simp only [hdn, hdpn]
    · rw [hrw] at henc1 ⊢
      have := pySlice_setSlice_self pkt (encode_pts e.pts) e.pts_pos (by omega)
      rwa [henc1] at this
  · refine ⟨setSlice (setSlice pkt e.pts_pos (encode_pts (rewrite_ts e.pts 0)))
        (e.pts_pos + 5) (encode_pts (rewrite_ts d 0)), ?_, ?_⟩
    · rw [hproc]
      unfold splice_apply_offset
      simp only [hd, hdp]
    · rw [hrw] at henc1 ⊢
      rw [pySlice_setSlice_before _ _ _ _ _
            (by rw [length_setSlice _ _ _ (by omega)]; simp [encode_pts_length]; omega)
            (by omega)]
      have := pySlice_setSlice_self pkt (encode_pts e.pts) e.pts_pos (by omega)
      rwa [henc1] at this

set_option maxRecDepth 20000 in
/-- Witness for C10: a fresh splice state processing the sample live
packet, whose first decoded timestamp is 9000. -/
theorem C10_first_live_without_placeholder_witness :
    splice_note_first ⟨none, none, none⟩ 9000 = ⟨some 9000, some 9000, some 0⟩
    ∧ pts_offset_calc 9000 9000 = 0
    ∧ rewrite_ts 9000 0 = 9000
    ∧ (∀ x, x < 2 ^ 33 → rewrite_ts x 0 = x)
    ∧ (∃ out, process_live_packet ⟨none, none, none⟩ sample_live_packet
          = .ok (⟨some 9000, some 9000, some 0⟩, out)
        ∧ pySlice out 13 (13 + 5) = encode_pts 9000) :=
  C10_first_live_without_placeholder ⟨none, none, none⟩ sample_live_packet
    ⟨9000, 13, none, none⟩ rfl rfl (by decide) (by decide)

/-! ## TCP broadcast delivery (scripts/tcp_sink.py) -/

/-- Per-chunk behaviour of one connected client's transport during a
broadcast pass: the awaited drain completes; the write/drain raises
ConnectionResetError or BrokenPipeError; or the drain suspends forever
because the peer stopped reading and its send buffer stays over the
high-water mark. -/
inductive WriteBehavior where
  | completes
  | errors
  | stalls
deriving DecidableEq, Repr

/-- A connected client of tcp_sink.serve_stream, identified by an id, with
its transport behaviour for the current chunk. -/
structure Client where
  cid : Nat
  behavior : WriteBehavior
deriving DecidableEq, Repr

/-- Outcome of one broadcast(chunk) pass over the iteration order of the
client set: .done with the clients the chunk reached and the dead set, or
.blockedOn a stalled client, with only the clients iterated before it
served. -/
inductive BroadcastOutcome where
  | done (delivered : List Nat) (dead : List Nat)
  | blockedOn (stuck : Nat) (delivered : List Nat) (dead : List Nat)
deriving DecidableEq, Repr

/-- The for-loop of tcp_sink.broadcast: writer.write(chunk) then
await writer.drain() for each client in turn; ConnectionResetError and
BrokenPipeError add the client to dead; an await that never completes
suspends the single broadcast coroutine, so no later client is served in
that pass and the dead set is never processed. -/
def broadcast : List Client → BroadcastOutcome
  | [] => .done [] []
  | c :: cs =>
      match c.behavior with
      | .completes =>
          match broadcast cs with
          | .done ds dead => .done (c.cid :: ds) dead
          | .blockedOn s ds dead => .blockedOn s (c.cid :: ds) dead
      | .errors =>
          match broadcast cs with
          | .done ds dead => .done ds (c.cid :: dead)
          | .blockedOn s ds dead => .blockedOn s ds (c.cid :: dead)
      | .stalls => .blockedOn c.cid [] []

/-- The client set after the pass: when the loop finishes, close_client
discards every dead client; when the pass is blocked on a stalled client
the clean-up is never reached and no client is dropped. -/
def clients_after (cs : List Client) : List Client :=
  match broadcast cs with
  | .done _ dead => cs.filter (fun c => !(dead.contains c.cid))
  | .blockedOn _ _ _ => cs

/-- C2 as stated is false: one client that stalls (stops reading with a
full send buffer) blocks the broadcast pass before the second client is
served, and the stalled client is never dropped because tcp_sink has no
write timeout. -/
theorem C2_counterexample_stalled_client_blocks :
    broadcast [⟨0, .stalls⟩, ⟨1, .completes⟩] = .blockedOn 0 [] []
    ∧ clients_after [⟨0, .stalls⟩, ⟨1, .completes⟩] = [⟨0, .stalls⟩, ⟨1, .completes⟩] := by
  refine ⟨by decide, by decide⟩

/-- C2 amended: a client whose write errors (reset/broken pipe) is dropped
from the client set without blocking delivery to the others or the
upstream read loop — provided no client stalls: the pass completes, the
chunk reaches exactly the non-erroring clients in order, the dead set is
exactly the erroring clients, and clients_after retains exactly the
delivering clients. -/
theorem C2_erroring_clients_dropped (cs : List Client)
    (hns : ∀ c ∈ cs, c.behavior ≠ WriteBehavior.stalls)
    (hnd : (cs.map Client.cid).Nodup) :
    broadcast cs =
      .done ((cs.filter (fun c => c.behavior == WriteBehavior.completes)).map Client.cid)
            ((cs.filter (fun c => c.behavior == WriteBehavior.errors)).map Client.cid)
    ∧ clients_after cs = cs.filter (fun c => c.behavior == WriteBehavior.completes) := by
  have hbc : broadcast cs =
      .done ((cs.filter (fun c => c.behavior == WriteBehavior.completes)).map Client.cid)
            ((cs.filter (fun c => c.behavior == WriteBehavior.errors)).map Client.cid) := by
    clear hnd
    induction cs with
    | nil => rfl
    | cons c cs ih =>
        have hc : c.behavior ≠ WriteBehavior.stalls := hns c (by simp)
        have htail : ∀ x ∈ cs, x.behavior ≠ WriteBehavior.stalls :=
          fun x hx => hns x (by simp [hx])
        cases hb : c.behavior with
        | stalls => exact absurd hb hc
        | completes =>
            unfold broadcast
            rw [hb, ih htail]
            simp [List.filter_cons, hb]
        | errors =>
            unfold broadcast
            rw [hb, ih htail]
            simp [List.filter_cons, hb]
  refine ⟨hbc, ?_⟩
  unfold clients_after
  rw [hbc]
  apply List.filter_congr
  intro c hc
  have hinj := List.inj_on_of_nodup_map hnd
  cases hb : c.behavior with
  | stalls => exact absurd hb (hns c hc)
  | completes =>
      have hnotdead : c.cid ∉
          (cs.filter (fun x => x.behavior == WriteBehavior.errors)).map Client.cid := by
        intro hmem
        obtain ⟨c', hc'mem, hc'cid⟩ := List.mem_map.mp hmem
        have hc'cs : c' ∈ cs := List.mem_of_mem_filter hc'mem
        have hc'err : c'.behavior = WriteBehavior.errors := by
          have := List.of_mem_filter hc'mem
          simpa using this
        have : c' = c := hinj hc'cs hc hc'cid
        rw [this] at hc'err
        rw [hb] at hc'err
        cases hc'err
      have hcontains :
          ((cs.filter (fun x => x.behavior == WriteBehavior.errors)).map
            Client.cid).contains c.cid = false := by
        rw [List.contains_eq_any_beq, List.any_eq_false]
        intro x hx
        simp only [beq_iff_eq]
        intro hxc
        rw [← hxc] at hx
        exact hnotdead hx
      rw [hcontains]
      decide
  | errors =>
      have hdead : c.cid ∈
          (cs.filter (fun x => x.behavior == WriteBehavior.errors)).map Client.cid :=
        List.mem_map.mpr ⟨c, List.mem_filter.mpr ⟨hc, by simp [hb]⟩, rfl⟩
      have hcontains :
          ((cs.filter (fun x => x.behavior == WriteBehavior.errors)).map
            Client.cid).contains c.cid = true := by
        rw [List.contains_eq_any_beq, List.any_eq_true]
        exact ⟨c.cid, hdead, by simp⟩
      rw [hcontains]
      decide

/-- Witness for the amended C2: three clients, the middle one erroring;
the pass completes, delivers to clients 0 and 2 and drops client 1. -/
theorem C2_erroring_clients_dropped_witness :
    broadcast [⟨0, .completes⟩, ⟨1, .errors⟩, ⟨2, .completes⟩] =
      .done (([(⟨0, .completes⟩ : Client), ⟨1, .errors⟩, ⟨2, .completes⟩].filter
                (fun c => c.behavior == WriteBehavior.completes)).map Client.cid)
            (([(⟨0, .completes⟩ : Client), ⟨1, .errors⟩, ⟨2, .completes⟩].filter
                (fun c => c.behavior == WriteBehavior.errors)).map Client.cid)
    ∧ clients_after [⟨0, .completes⟩, ⟨1, .errors⟩, ⟨2, .completes⟩] =
        [(⟨0, .completes⟩ : Client), ⟨1, .errors⟩, ⟨2, .completes⟩].filter
          (fun c => c.behavior == WriteBehavior.completes) :=
  C2_erroring_clients_dropped [⟨0, .completes⟩, ⟨1, .errors⟩, ⟨2, .completes⟩]
    (by decide) (by decide)

/-! ## Transcode manager state (server/transcode/stub.py and the
spec-modelled supervisor) -/

/-- TranscodeProfile from server/transcode/manager.py as used by the stub
and registry: name, ordered opaque output arguments, optional description,
optional fixed listen port. -/
structure TranscodeProfile where
  name : String
  output_args : List String
  description : Option String
  listen_port : Option Nat
deriving DecidableEq, Repr

/-- PipelineStatus as constructed by StubTranscodeManager.start_pipeline.
Timestamps are integer milliseconds; paths are strings. -/
structure PipelineStatus where
  op_id : String
  channel : String
  profile : String
  started_at : Nat
  state : String
  listen_host : String
  listen_port : Nat
  outfile : String
  log_file : String
  pgid : Option Nat
  ended_at : Option Nat
  restart_count : Nat
  last_error : Option String
deriving DecidableEq, Repr

/-- PipelineMetrics: cumulative bytes, elapsed output time, instantaneous
bitrate, last update time. -/
structure PipelineMetrics where
  op_id : String
  bytes_total : Nat
  out_time_ms : Nat
  bitrate_kbps : Nat
  updated_at : Nat
deriving DecidableEq, Repr

/-- Python dict lookup d.get(k) over an association list. -/
def dict_get {α : Type} (l : List (String × α)) (k : String) : Option α :=
  (l.find? (fun p => p.1 == k)).map Prod.snd

/-- Python dict assignment d[k] = v: replace the existing entry or append
a new one. -/
def dict_set {α : Type} (l : List (String × α)) (k : String) (v : α) :
    List (String × α) :=
  if (l.find? (fun p => p.1 == k)).isSome
  then l.map (fun p => if p.1 == k then (k, v) else p)
  else l ++ [(k, v)]

/-- Python dict removal d.pop(k, None). -/
def dict_pop {α : Type} (l : List (String × α)) (k : String) :
    List (String × α) :=
  l.filter (fun p => !(p.1 == k))

/-- The mutable state of StubTranscodeManager: _pipelines, _metrics and
the keys of _metric_tasks (task objects abstracted to their presence). -/
structure StubState where
  pipelines : List (String × PipelineStatus)
  metrics : List (String × PipelineMetrics)
  metric_tasks : List String
deriving DecidableEq, Repr

/-- StubTranscodeManager._update_metrics with the wall clock passed in as
integer milliseconds (the source reads time.time() in float seconds;
elapsed = max(0, now - started_at) is Nat subtraction here). -/
def stub_update_metrics (st : StubState) (op_id : String) (now_ms : Nat) :
    StubState :=
  match dict_get st.pipelines op_id, dict_get st.metrics op_id with
  | some status, some m =>
      let elapsed_ms := now_ms - status.started_at
      let m' := { m with
        out_time_ms := elapsed_ms,
        bytes_total := if elapsed_ms = 0 then 0 else 1500000 / 8 * elapsed_ms / 1000,
        bitrate_kbps := if elapsed_ms = 0 then 0 else 1500,
        updated_at := now_ms }
      { st with metrics := dict_set st.metrics op_id m' }
  | _, _ => st

/-- StubTranscodeManager.get_status: a pure dictionary read. -/
def stub_get_status (st : StubState) (op_id : String) : Option PipelineStatus :=
  dict_get st.pipelines op_id

/-- StubTranscodeManager.get_metrics: None unless both the status and the
metrics records exist; otherwise refresh the metrics and return them. -/
def stub_get_metrics (st : StubState) (op_id : String) (now_ms : Nat) :
    StubState × Option PipelineMetrics :=
  match dict_get st.pipelines op_id, dict_get st.metrics op_id with
  | some _, some _ =>
      ((stub_update_metrics st op_id now_ms),
       dict_get (stub_update_metrics st op_id now_ms).metrics op_id)
  | _, _ => (st, none)

/-- StubTranscodeManager.stop_pipeline: False when op_id is unknown;
otherwise mark the status stopped, stamp ended_at, refresh metrics and
cancel/drop the metric task. -/
def stub_stop_pipeline (st : StubState) (op_id : String) (now_ms : Nat) :
    StubState × Bool :=
  match dict_get st.pipelines op_id with
  | none => (st, false)
  | some status =>
      let stopped := { status with state := "stopped", ended_at := some now_ms }
      let st1 := { st with pipelines := dict_set st.pipelines op_id stopped }
      let st2 := stub_update_metrics st1 op_id now_ms
      (({ st2 with metric_tasks := st2.metric_tasks.filter (fun k => !(k == op_id)) }), true)

/-- C9: for an op_id unknown to the manager, get_status yields the
well-defined not-found result None, get_metrics yields None, and
stop_pipeline returns False; none of the three raises and none mutates
any state. -/
theorem C9_absent_op_id_safe (st : StubState) (op_id : String) (now_ms : Nat)
    (h : dict_get st.pipelines op_id = none) :
    stub_get_status st op_id = none
    ∧ stub_get_metrics st op_id now_ms = (st, none)
    ∧ stub_stop_pipeline st op_id now_ms = (st, false) := by
  refine ⟨h, ?_, ?_⟩
  · unfold stub_get_metrics
    rw [h]
  · unfold stub_stop_pipeline
    rw [h]

/-- Witness for C9: a manager holding one pipeline "a", queried for the
absent op_id "b". -/
theorem C9_absent_op_id_safe_witness :
    stub_get_status
        ⟨[("a", ⟨"a", "ch", "stub", 0, "running", "127.0.0.1", 5001,
           "/tmp/a.mpg", "/tmp/a.log", none, none, 0, none⟩)], [], ["a"]⟩ "b" = none
    ∧ stub_get_metrics
        ⟨[("a", ⟨"a", "ch", "stub", 0, "running", "127.0.0.1", 5001,
           "/tmp/a.mpg", "/tmp/a.log", none, none, 0, none⟩)], [], ["a"]⟩ "b" 1000 =
        (⟨[("a", ⟨"a", "ch", "stub", 0, "running", "127.0.0.1", 5001,
           "/tmp/a.mpg", "/tmp/a.log", none, none, 0, none⟩)], [], ["a"]⟩, none)
    ∧ stub_stop_pipeline
        ⟨[("a", ⟨"a", "ch", "stub", 0, "running", "127.0.0.1", 5001,
           "/tmp/a.mpg", "/tmp/a.log", none, none, 0, none⟩)], [], ["a"]⟩ "b" 1000 =
        (⟨[("a", ⟨"a", "ch", "stub", 0, "running", "127.0.0.1", 5001,
           "/tmp/a.mpg", "/tmp/a.log", none, none, 0, none⟩)], [], ["a"]⟩, false) :=
  C9_absent_op_id_safe _ "b" 1000 (by decide)

/-! ## Spec-modelled pipeline supervisor (claim C4) -/

/-- The supervisor's mutable state: the profile registry and the per-op
Operation and Metrics records. -/
structure SupervisorState where
  registry : List (String × TranscodeProfile)
  pipelines : List (String × PipelineStatus)
  metrics : List (String × PipelineMetrics)
deriving DecidableEq, Repr

/-- The error classes of the spec's taxonomy relevant to start:
ConfigError (unknown/invalid profile — rejected synchronously, no state
change) and ValueError (op_id already active). -/
inductive StartError where
  | configError
  | valueError
deriving DecidableEq, Repr

/-- Result of a start request. -/
inductive StartResult where
  | started (status : PipelineStatus)
  | failed (e : StartError)
deriving DecidableEq, Repr

/-- Modelled from the spec: TranscodeManager.start_pipeline of
server/transcode/manager.py is not among the sources at hand (only the
stub stand-in and its HTTP callers are).  Per the spec, start(op_id,
channel, profile_name) resolves the profile (fails with ConfigError if
unknown), fails with a ValueError-class error if op_id is already active,
and otherwise records a new running Operation bound to the profile's
listen port together with its fresh Metrics record. -/
def supervisor_start (st : SupervisorState) (op_id channel profile_name : String)
    (now_ms : Nat) : SupervisorState × StartResult :=
  match dict_get st.registry profile_name with
  | none => (st, .failed .configError)
  | some profile =>
      if (dict_get st.pipelines op_id).isSome then (st, .failed .valueError)
      else
        let status : PipelineStatus :=
          { op_id := op_id, channel := channel, profile := profile.name,
            started_at := now_ms, state := "running",
            listen_host := "127.0.0.1", listen_port := profile.listen_port.getD 5001,
            outfile := "/tmp/" ++ op_id ++ ".mpg", log_file := "/tmp/" ++ op_id ++ ".log",
            pgid := none, ended_at := none, restart_count := 0, last_error := none }
        let m : PipelineMetrics := { op_id := op_id, bytes_total := 0,
                                     out_time_ms := 0, bitrate_kbps := 0, updated_at := 0 }
        ({ st with pipelines := dict_set st.pipelines op_id status,
                   metrics := dict_set st.metrics op_id m },
         .started status)

/-- C4: start fails with a ConfigError-class error when the profile is
unknown to the registry and with a ValueError-class error when op_id is
already active; in both failure cases the returned state is the input
state — no Operation or Metrics record is created and nothing is
mutated. -/
theorem C4_start_rejects_without_state_change (st : SupervisorState)
    (op_id channel profile_name : String) (now_ms : Nat) :
    (dict_get st.registry profile_name = none →
      supervisor_start st op_id channel profile_name now_ms =
        (st, .failed .configError))
    ∧ (∀ p, dict_get st.registry profile_name = some p →
        (dict_get st.pipelines op_id).isSome →
        supervisor_start st op_id channel profile_name now_ms =
          (st, .failed .valueError)) := by
  constructor
  · intro h
    unfold supervisor_start
    rw [h]
  · intro p hp hact
    unfold supervisor_start
    rw [hp]
    simp only [if_pos hact]

/-- Witness for C4: a registry holding only the profile "stub" and one
active operation "op1"; starting with an unknown profile name fails with
ConfigError, and starting "op1" again with the known profile fails with
ValueError, both leaving the state untouched. -/
theorem C4_start_rejects_without_state_change_witness :
    (supervisor_start
        ⟨[("stub", ⟨"stub", [], none, some 5001⟩)],
         [("op1", ⟨"op1", "ch", "stub", 0, "running", "127.0.0.1", 5001,
            "/tmp/op1.mpg", "/tmp/op1.log", none, none, 0, none⟩)], []⟩
        "op2" "ch" "nope" 7 =
      (⟨[("stub", ⟨"stub", [], none, some 5001⟩)],
        [("op1", ⟨"op1", "ch", "stub", 0, "running", "127.0.0.1", 5001,
           "/tmp/op1.mpg", "/tmp/op1.log", none, none, 0, none⟩)], []⟩,
       .failed .configError))
    ∧ (supervisor_start
        ⟨[("stub", ⟨"stub", [], none, some 5001⟩)],
         [("op1", ⟨"op1", "ch", "stub", 0, "running", "127.0.0.1", 5001,
            "/tmp/op1.mpg", "/tmp/op1.log", none, none, 0, none⟩)], []⟩
        "op1" "ch" "stub" 7 =
      (⟨[("stub", ⟨"stub", [], none, some 5001⟩)],
        [("op1", ⟨"op1", "ch", "stub", 0, "running", "127.0.0.1", 5001,
           "/tmp/op1.mpg", "/tmp/op1.log", none, none, 0, none⟩)], []⟩,
       .failed .valueError)) :=
  ⟨(C4_start_rejects_without_state_change _ "op2" "ch" "nope" 7).1 (by decide),
   (C4_start_rejects_without_state_change _ "op1" "ch" "stub" 7).2
     ⟨"stub", [], none, some 5001⟩ (by decide) (by decide)⟩

/-! ## HLS repackager (scripts/hls_repacker.py, claim C8) -/

/-- SegmentEntry from hls_repacker.py.  The declared duration is carried
in exact milliseconds; Python formats it with three decimals, which the
millisecond rendering below reproduces for every representable value. -/
structure SegmentEntry where
  uri : String
  duration_ms : Nat
  discontinuity : Bool
deriving DecidableEq, Repr

/-- Left-pad to three digits, for the fractional part of an EXTINF
duration. -/
def pad3 (n : Nat) : String :=
  (if n < 10 then "00" else if n < 100 then "0" else "") ++ toString n

/-- Python's f-string {x:.3f} on an exact-millisecond duration. -/
def fmt3 (ms : Nat) : String :=
  toString (ms / 1000) ++ "." ++ pad3 (ms % 1000)

/-- Left-pad to five digits, as in {sequence:05d}. -/
def pad5 (n : Nat) : String :=
  (if n < 10 then "0000" else if n < 100 then "000" else if n < 1000 then "00"
   else if n < 10000 then "0" else "") ++ toString n

/-- The normalized sequential segment name
f"segment_{sequence:05d}" + SEGMENT_SUFFIX. -/
def seg_name (sequence : Nat) : String :=
  "segment_" ++ pad5 sequence ++ ".ts"

/-- build_manifest from hls_repacker.py, as its list of lines (the source
joins them with a newline): fixed header, then per segment an optional
discontinuity tag, the EXTINF line and the URI. -/
def build_manifest (segments : List SegmentEntry) : List String :=
  ["#EXTM3U", "#EXT-X-VERSION:3", "#EXT-X-TARGETDURATION:6", "#EXT-X-MEDIA-SEQUENCE:0"]
  ++ segments.flatMap (fun seg =>
      (if seg.discontinuity then ["#EXT-X-DISCONTINUITY"] else [])
      ++ ["#EXTINF:" ++ fmt3 seg.duration_ms ++ ",", seg.uri])

/-- collections.deque(maxlen) append: add on the right, discard from the
left beyond maxlen. -/
def deque_append (maxlen : Nat) (d : List SegmentEntry) (x : SegmentEntry) :
    List SegmentEntry :=
  (d ++ [x]).drop ((d ++ [x]).length - maxlen)

/-- The loop state of hls_repacker.repack relevant to the gap branch. -/
structure RepackState where
  keep_segments : Nat
  segment_duration_ms : Nat
  recent_segments : List SegmentEntry
  sequence : Nat
  last_output_path : Option String
deriving DecidableEq, Repr

/-- The copy performed by the gap branch and the rewritten manifest. -/
structure GapResult where
  copied_from : String
  copied_to : String
  state : RepackState
  manifest : List String
deriving DecidableEq, Repr

/-- The gap-timeout branch of hls_repacker.repack, entered when
gap_timeout > 0, a last delivered segment exists (src), recent_segments
is non-empty and no new source segment arrived for gap_timeout seconds:
duplicate the last delivered segment under the next sequential name,
append its entry tagged with a discontinuity, advance the sequence and
rewrite the manifest (last_output_path itself is not updated). -/
def gap_fill (st : RepackState) (src : String) : GapResult :=
  let dst_name := seg_name st.sequence
  let entry : SegmentEntry := ⟨dst_name, st.segment_duration_ms, true⟩
  let recent' := deque_append st.keep_segments st.recent_segments entry
  { copied_from := src, copied_to := dst_name,
    state := { st with recent_segments := recent', sequence := st.sequence + 1 },
    manifest := build_manifest recent' }

/-- C8: on gap timeout the last successfully delivered segment is
duplicated under the next sequential name, its manifest entry carries the
discontinuity tag, the sliding window keeps at most keep_segments entries
and exactly keep_segments once that many have been produced, and the
rewritten manifest ends with the discontinuity tag followed by the new
entry's EXTINF line and URI. -/
theorem C8_gap_duplicates_with_discontinuity (st : RepackState) (src : String)
    (hsrc : st.last_output_path = some src)
    (hne : st.recent_segments ≠ [])
    (hkeep : 1 ≤ st.keep_segments)
    (hlen : st.recent_segments.length ≤ st.keep_segments) :
    (gap_fill st src).copied_from = src
    ∧ (gap_fill st src).copied_to = seg_name st.sequence
    ∧ (gap_fill st src).state.sequence = st.sequence + 1
    ∧ (gap_fill st src).state.recent_segments =
        st.recent_segments.drop (st.recent_segments.length + 1 - st.keep_segments)
        ++ [⟨seg_name st.sequence, st.segment_duration_ms, true⟩]
    ∧ (gap_fill st src).state.recent_segments.length =
        min (st.recent_segments.length + 1) st.keep_segments
    ∧ (st.keep_segments ≤ st.recent_segments.length + 1 →
        (gap_fill st src).state.recent_segments.length = st.keep_segments)
    ∧ (gap_fill st src).manifest =
        build_manifest (gap_fill st src).state.recent_segments
    ∧ ∃ head, (gap_fill st src).manifest =
        head ++ ["#EXT-X-DISCONTINUITY",
                 "#EXTINF:" ++ fmt3 st.segment_duration_ms ++ ",",
                 seg_name st.sequence] := by
  have hdq : deque_append st.keep_segments st.recent_segments
      ⟨seg_name st.sequence, st.segment_duration_ms, true⟩ =
      st.recent_segments.drop (st.recent_segments.length + 1 - st.keep_segments)
      ++ [⟨seg_name st.sequence, st.segment_duration_ms, true⟩] := by
    unfold deque_append
    rw [List.length_append]
    have hle : st.recent_segments.length + 1 - st.keep_segments
        ≤ st.recent_segments.length := by omega
    rw [List.drop_append_of_le_length (by simpa using hle)]
    simp
  refine ⟨rfl, rfl, rfl, ?_, ?_, ?_, rfl, ?_⟩
  · simpa [gap_fill] using hdq
  · show (deque_append st.keep_segments st.recent_segments
        ⟨seg_name st.sequence, st.segment_duration_ms, true⟩).length = _
    rw [hdq]
    rw [List.length_append, List.length_drop]
    simp
    omega
  · intro hge
    show (deque_append st.keep_segments st.recent_segments
        ⟨seg_name st.sequence, st.segment_duration_ms, true⟩).length = _
    rw [hdq]
    rw [List.length_append, List.length_drop]
    simp
    omega
  · refine ⟨["#EXTM3U", "#EXT-X-VERSION:3", "#EXT-X-TARGETDURATION:6",
      "#EXT-X-MEDIA-SEQUENCE:0"]
      ++ (st.recent_segments.drop
            (st.recent_segments.length + 1 - st.keep_segments)).flatMap
          (fun seg =>
            (if seg.discontinuity then ["#EXT-X-DISCONTINUITY"] else [])
            ++ ["#EXTINF:" ++ fmt3 seg.duration_ms ++ ",", seg.uri]), ?_⟩
    show build_manifest (deque_append st.keep_segments st.recent_segments
        ⟨seg_name st.sequence, st.segment_duration_ms, true⟩) = _
    rw [hdq]
    unfold build_manifest
    rw [List.flatMap_append]
    simp [List.append_assoc]

/-- Witness for C8: a window of keep_segments = 2 already holding two
segments; the gap branch duplicates segment_00002.ts as segment_00003.ts,
tags it, and the window still holds exactly 2 entries. -/
theorem C8_gap_duplicates_with_discontinuity_witness :
    (gap_fill ⟨2, 4000, [⟨"segment_00001.ts", 4000, false⟩,
        ⟨"segment_00002.ts", 4000, false⟩], 3, some "segment_00002.ts"⟩
      "segment_00002.ts").copied_from = "segment_00002.ts"
    ∧ (gap_fill ⟨2, 4000, [⟨"segment_00001.ts", 4000, false⟩,
        ⟨"segment_00002.ts", 4000, false⟩], 3, some "segment_00002.ts"⟩
      "segment_00002.ts").copied_to = seg_name 3
    ∧ (gap_fill ⟨2, 4000, [⟨"segment_00001.ts", 4000, false⟩,
        ⟨"segment_00002.ts", 4000, false⟩], 3, some "segment_00002.ts"⟩
      "segment_00002.ts").state.sequence = 3 + 1
    ∧ (gap_fill ⟨2, 4000, [⟨"segment_00001.ts", 4000, false⟩,
        ⟨"segment_00002.ts", 4000, false⟩], 3, some "segment_00002.ts"⟩
      "segment_00002.ts").state.recent_segments =
        [⟨"segment_00001.ts", 4000, false⟩, ⟨"segment_00002.ts", 4000, false⟩].drop
          (2 + 1 - 2) ++ [⟨seg_name 3, 4000, true⟩]
    ∧ (gap_fill ⟨2, 4000, [⟨"segment_00001.ts", 4000, false⟩,
        ⟨"segment_00002.ts", 4000, false⟩], 3, some "segment_00002.ts"⟩
      "segment_00002.ts").state.recent_segments.length = min (2 + 1) 2
    ∧ (2 ≤ 2 + 1 →
        (gap_fill ⟨2, 4000, [⟨"segment_00001.ts", 4000, false⟩,
          ⟨"segment_00002.ts", 4000, false⟩], 3, some "segment_00002.ts"⟩
        "segment_00002.ts").state.recent_segments.length = 2)
    ∧ (gap_fill ⟨2, 4000, [⟨"segment_00001.ts", 4000, false⟩,
        ⟨"segment_00002.ts", 4000, false⟩], 3, some "segment_00002.ts"⟩
      "segment_00002.ts").manifest =
        build_manifest ((gap_fill ⟨2, 4000, [⟨"segment_00001.ts", 4000, false⟩,
          ⟨"segment_00002.ts", 4000, false⟩], 3, some "segment_00002.ts"⟩
        "segment_00002.ts").state.recent_segments)
    ∧ ∃ head, (gap_fill ⟨2, 4000, [⟨"segment_00001.ts", 4000, false⟩,
        ⟨"segment_00002.ts", 4000, false⟩], 3, some "segment_00002.ts"⟩
      "segment_00002.ts").manifest =
        head ++ ["#EXT-X-DISCONTINUITY", "#EXTINF:" ++ fmt3 4000 ++ ",", seg_name 3] :=
  C8_gap_duplicates_with_discontinuity
    ⟨2, 4000, [⟨"segment_00001.ts", 4000, false⟩, ⟨"segment_00002.ts", 4000, false⟩],
     3, some "segment_00002.ts"⟩ "segment_00002.ts" rfl (by decide) (by decide) (by decide)

/-! ## Placeholder/live switch (scripts/fifo_switch.py, claim C6) -/

/-- Signals _terminate may send to the process group. -/
inductive TermSig where
  | sigterm
  | sigkill
deriving DecidableEq, Repr

/-- _terminate from fifo_switch.py: when the process is still running,
SIGTERM to the group, a bounded 2-second wait, then SIGKILL on timeout
(graceful then forced); an already-exited process gets no signal. -/
def fifo_terminate (running : Bool) (exitsWithinGrace : Bool) : List TermSig :=
  if running then
    (if exitsWithinGrace then [.sigterm] else [.sigterm, .sigkill])
  else []

/-- Observable events of fifo_switch.main on the live/placeholder
sources and the FIFO sink. -/
inductive SwitchEv where
  | pollLive
  | writePlaceholder (chunk : List Nat)
  | setBlockingLive
  | termPlaceholder
  | writeLive (chunk : List Nat)
  | blockingLiveRead
deriving DecidableEq, Repr

/-- Fatal RuntimeError cases of the pre-handover loop. -/
inductive SwitchError where
  | liveExitedEarly
  | placeholderExitedEarly
deriving DecidableEq, Repr

/-- What one pre-handover iteration observes: whether live_proc.poll()
reports an exit, the non-blocking live read (none models both
BlockingIOError and an empty read, which are equally falsy in the
source), the placeholder read, and whether placeholder_proc.poll()
reports an exit. -/
structure PreInput where
  liveExited : Bool
  liveRead : Option (List Nat)
  placeholderRead : Option (List Nat)
  placeholderExited : Bool
deriving DecidableEq, Repr

/-- Result of the pre-handover loop of fifo_switch.main over a finite
observation sequence: handover reached (trace ends with the switch-over
actions), still waiting (observations exhausted, placeholder still
relaying), or a fatal RuntimeError. -/
inductive PreResult where
  | handover (trace : List SwitchEv)
  | waiting (trace : List SwitchEv)
  | failed (trace : List SwitchEv) (e : SwitchError)
deriving DecidableEq, Repr

/-- The pre-handover loop of fifo_switch.main.  Each iteration first
checks the live process for an early exit, then polls the live source
without blocking; a non-empty live chunk triggers the handover sequence
(restore blocking mode, terminate the placeholder, write the buffered
live chunk, leave the loop); otherwise one placeholder chunk is relayed
to the FIFO, an exited placeholder is fatal, and an idle placeholder only
logs the watchdog line. -/
def switch_pre : List PreInput → PreResult
  | [] => .waiting []
  | i :: is =>
      if i.liveExited then .failed [] .liveExitedEarly
      else if (i.liveRead.getD []) ≠ [] then
        .handover [.pollLive, .setBlockingLive, .termPlaceholder,
                   .writeLive (i.liveRead.getD [])]
      else if (i.placeholderRead.getD []) ≠ [] then
        match switch_pre is with
        | .handover tr => .handover (.pollLive :: .writePlaceholder (i.placeholderRead.getD []) :: tr)
        | .waiting tr => .waiting (.pollLive :: .writePlaceholder (i.placeholderRead.getD []) :: tr)
        | .failed tr e => .failed (.pollLive :: .writePlaceholder (i.placeholderRead.getD []) :: tr) e
      else if i.placeholderExited then .failed [.pollLive] .placeholderExitedEarly
      else
        match switch_pre is with
        | .handover tr => .handover (.pollLive :: tr)
        | .waiting tr => .waiting (.pollLive :: tr)
        | .failed tr e => .failed (.pollLive :: tr) e

/-- The post-handover loop of fifo_switch.main: blocking reads from the
live source, each non-empty chunk written straight to the FIFO. -/
def switch_post : List (Option (List Nat)) → List SwitchEv
  | [] => []
  | o :: os =>
      if (o.getD []) ≠ [] then .blockingLiveRead :: .writeLive (o.getD []) :: switch_post os
      else .blockingLiveRead :: switch_post os

/-- fifo_switch.main over a pre-handover observation sequence followed by
post-handover reads: the post loop runs only after a handover. -/
def switch_run (pre : List PreInput) (post : List (Option (List Nat))) :
    List SwitchEv × Option SwitchError :=
  match switch_pre pre with
  | .handover tr => (tr ++ switch_post post, none)
  | .waiting tr => (tr, none)
  | .failed tr e => (tr, some e)

/-- An event is one the pre-handover phase may emit: a non-blocking live
poll or a placeholder chunk relayed to the sink. -/
def preEv (ev : SwitchEv) : Prop :=
  ev = .pollLive ∨ ∃ c, ev = .writePlaceholder c

/-- Every event of a still-waiting pre-handover trace is a non-blocking
live poll or a placeholder relay. -/
theorem switch_pre_waiting_shape (pre : List PreInput) :
    ∀ tr, switch_pre pre = .waiting tr → ∀ ev ∈ tr, preEv ev := by
  induction pre with
  | nil =>
      intro tr htr
      unfold switch_pre at htr
      cases htr
      intro ev hev
      cases hev
  | cons i is ih =>
      intro tr htr
      unfold switch_pre at htr
      by_cases h1 : i.liveExited
      · rw [if_pos h1] at htr
        cases htr
      rw [if_neg h1] at htr
      by_cases h2 : (i.liveRead.getD []) ≠ []
      · rw [if_pos h2] at htr
        cases htr
      rw [if_neg h2] at htr
      by_cases h3 : (i.placeholderRead.getD []) ≠ []
      · rw [if_pos h3] at htr
        cases hrec : switch_pre is with
        | handover tr2 =>
            rw [hrec] at htr
            cases htr
        | waiting tr2 =>
            rw [hrec] at htr
            cases htr
            intro ev hev
            rw [List.mem_cons] at hev
            rcases hev with rfl | hev
            · exact Or.inl rfl
            rw [List.mem_cons] at hev
            rcases hev with rfl | hev
            · exact Or.inr ⟨_, rfl⟩
            · exact ih tr2 hrec ev hev
        | failed tr2 e =>
            rw [hrec] at htr
            cases htr
      · rw [if_neg h3] at htr
        by_cases h4 : i.placeholderExited
        · rw [if_pos h4] at htr
          cases htr
        rw [if_neg h4] at htr
        cases hrec : switch_pre is with
        | handover tr2 =>
            rw [hrec] at htr
            cases htr
        | waiting tr2 =>
            rw [hrec] at htr
            cases htr
            intro ev hev
            rw [List.mem_cons] at hev
            rcases hev with rfl | hev
            · exact Or.inl rfl
            · exact ih tr2 hrec ev hev
        | failed tr2 e =>
            rw [hrec] at htr
            cases htr

/-- A trace that reaches handover is a pre-handover-only head followed by
exactly the switch-over sequence with the non-empty buffered chunk. -/
theorem switch_pre_handover_shape (pre : List PreInput) :
    ∀ tr, switch_pre pre = .handover tr →
      ∃ head c, c ≠ []
        ∧ tr = head ++ [.pollLive, .setBlockingLive, .termPlaceholder, .writeLive c]
        ∧ (∀ ev ∈ head, preEv ev) := by
  induction pre with
  | nil =>
      intro tr htr
      unfold switch_pre at htr
      cases htr
  | cons i is ih =>
      intro tr htr
      unfold switch_pre at htr
      by_cases h1 : i.liveExited
      · rw [if_pos h1] at htr
        cases htr
      rw [if_neg h1] at htr
      by_cases h2 : (i.liveRead.getD []) ≠ []
      · rw [if_pos h2] at htr
        cases htr
        exact ⟨[], i.liveRead.getD [], h2, rfl, by intro ev hev; cases hev⟩
      rw [if_neg h2] at htr
      by_cases h3 : (i.placeholderRead.getD []) ≠ []
      · rw [if_pos h3] at htr
        cases hrec : switch_pre is with
        | handover tr2 =>
            rw [hrec] at htr
            cases htr
            obtain ⟨head, c, hc, htr2, hhead⟩ := ih tr2 hrec
            refine ⟨.pollLive :: .writePlaceholder (i.placeholderRead.getD []) :: head,
              c, hc, by rw [htr2]; rfl, ?_⟩
            intro ev hev
            rw [List.mem_cons] at hev
            rcases hev with rfl | hev
            · exact Or.inl rfl
            rw [List.mem_cons] at hev
            rcases hev with rfl | hev
            · exact Or.inr ⟨_, rfl⟩
            · exact hhead ev hev
        | waiting tr2 =>
            rw [hrec] at htr
            cases htr
        | failed tr2 e =>
            rw [hrec] at htr
            cases htr
      · rw [if_neg h3] at htr
        by_cases h4 : i.placeholderExited
        · rw [if_pos h4] at htr
          cases htr
        rw [if_neg h4] at htr
        cases hrec : switch_pre is with
        | handover tr2 =>
            rw [hrec] at htr
            cases htr
            obtain ⟨head, c, hc, htr2, hhead⟩ := ih tr2 hrec
            refine ⟨.pollLive :: head, c, hc, by rw [htr2]; rfl, ?_⟩
            intro ev hev
            rw [List.mem_cons] at hev
            rcases hev with rfl | hev
            · exact Or.inl rfl
            · exact hhead ev hev
        | waiting tr2 =>
            rw [hrec] at htr
            cases htr
        | failed tr2 e =>
            rw [hrec] at htr
            cases htr

/-- The post-handover loop emits only blocking live reads and live chunk
writes. -/
theorem switch_post_shape (post : List (Option (List Nat))) :
    ∀ ev ∈ switch_post post, ev = .blockingLiveRead ∨ ∃ c, ev = .writeLive c := by
  induction post with
  | nil =>
      intro ev hev
      cases hev
  | cons o os ih =>
      intro ev hev
      unfold switch_post at hev
      by_cases h : (o.getD []) ≠ []
      · rw [if_pos h] at hev
        rw [List.mem_cons] at hev
        rcases hev with rfl | hev
        · exact Or.inl rfl
        rw [List.mem_cons] at hev
        rcases hev with rfl | hev
        · exact Or.inr ⟨_, rfl⟩
        · exact ih ev hev
      · rw [if_neg h] at hev
        rw [List.mem_cons] at hev
        rcases hev with rfl | hev
        · exact Or.inl rfl
        · exact ih ev hev

/-- C6: before handover the live source is only ever polled non-blockingly
while placeholder chunks feed the sink; the instant a non-empty live
chunk is read, the loop emits exactly: restore blocking mode, terminate
the placeholder (graceful SIGTERM then SIGKILL on timeout), write the
buffered live chunk — and only after that do the blocking live reads of
the post loop occur, so the buffered chunk reaches the sink before any
further live read. -/
theorem C6_handover_ordering (pre : List PreInput) (post : List (Option (List Nat))) :
    (∀ tr, switch_pre pre = .waiting tr → ∀ ev ∈ tr, preEv ev)
    ∧ (∀ tr, switch_pre pre = .handover tr →
        ∃ head c, c ≠ []
          ∧ tr = head ++ [.pollLive, .setBlockingLive, .termPlaceholder, .writeLive c]
          ∧ (∀ ev ∈ head, preEv ev)
          ∧ switch_run pre post = (tr ++ switch_post post, none))
    ∧ (∀ ev ∈ switch_post post, ev = .blockingLiveRead ∨ ∃ c, ev = .writeLive c)
    ∧ fifo_terminate true true = [.sigterm]
    ∧ fifo_terminate true false = [.sigterm, .sigkill] := by
  refine ⟨switch_pre_waiting_shape pre, ?_, switch_post_shape post, rfl, rfl⟩
  intro tr htr
  obtain ⟨head, c, hc, htr2, hhead⟩ := switch_pre_handover_shape pre tr htr
  refine ⟨head, c, hc, htr2, hhead, ?_⟩
  unfold switch_run
  rw [htr]

/-- Witness for C6: one idle live poll with a placeholder chunk relayed,
then a live chunk [2, 3] arrives; the trace splits exactly as claimed and
the post loop follows the buffered write. -/
theorem C6_handover_ordering_witness :
    ∃ head c, c ≠ []
      ∧ ([SwitchEv.pollLive, SwitchEv.writePlaceholder [1], SwitchEv.pollLive,
          SwitchEv.setBlockingLive, SwitchEv.termPlaceholder, SwitchEv.writeLive [2, 3]] : List SwitchEv)
          = head ++ [.pollLive, .setBlockingLive, .termPlaceholder, .writeLive c]
      ∧ (∀ ev ∈ head, preEv ev)
      ∧ switch_run [⟨false, none, some [1], false⟩, ⟨false, some [2, 3], none, false⟩]
            [some [4]]
          = ([SwitchEv.pollLive, SwitchEv.writePlaceholder [1], SwitchEv.pollLive,
              SwitchEv.setBlockingLive, SwitchEv.termPlaceholder, SwitchEv.writeLive [2, 3]]
             ++ switch_post [some [4]], none) :=
  (C6_handover_ordering [⟨false, none, some [1], false⟩, ⟨false, some [2, 3], none, false⟩]
      [some [4]]).2.1
    [SwitchEv.pollLive, SwitchEv.writePlaceholder [1], SwitchEv.pollLive,
     SwitchEv.setBlockingLive, SwitchEv.termPlaceholder, SwitchEv.writeLive [2, 3]]
    (by decide)
